import Mathlib

/-!
Shallow embedding of the e-shop GraphQL resolver layer
(src/server/src/schemas/resolvers.ts) for verification.

The mongoose document store is modelled as an explicit `Store` value holding
the product, user and category collections as lists; every resolver becomes a
pure function from its arguments and a `Store` to a result
`Except Err result` paired with the successor `Store`.  A thrown
GraphQLError / Error is modelled by the `Err` inductive; the pair form makes
the frame of each operation (what it leaves untouched) visible.

Numeric conventions: GraphQL `Int` fields (stock, quantities, ratings) are
embedded as `Int`; GraphQL `Float` money fields (price, salePrice) as `Rat`;
timestamps as `Nat` values passed in as a `now` argument where the source
calls `new Date()` or relies on a schema default.
-/

/-- One product review, from the `Review` schema type: authoring username
(a denormalized label), free-text body (field `review` in the source),
integer rating and creation timestamp. -/
structure Review where
  username : String
  review : String
  rating : Int
  dateCreated : Nat
deriving DecidableEq, Repr

/-- A catalog product, from the `Product` schema type plus the `onSale` and
`salePrice` fields that the checkout resolver reads from the mongoose model.
`salePrice` is `Option Rat`: `none` models an unset (null/undefined) field. -/
structure Product where
  id : String
  name : String
  description : String
  imageUrl : String
  price : Rat
  stock : Int
  reviews : List Review
  onSale : Bool
  salePrice : Option Rat
deriving DecidableEq, Repr

/-- One basket line, from the `BasketItem` schema type: a product reference
(by id), a quantity and the dateAdded timestamp. -/
structure BasketItem where
  product : String
  quantity : Int
  dateAdded : Nat
deriving DecidableEq, Repr

/-- One order-history entry: the flat product-id list exactly as passed to
checkout, plus the purchase timestamp (`new Date()` at checkout time). -/
structure Order where
  products : List String
  purchaseDate : Nat
deriving DecidableEq, Repr

/-- A user document: identity fields plus the basket and the order history. -/
structure UserRec where
  id : String
  username : String
  email : String
  basket : List BasketItem
  orders : List Order
deriving DecidableEq, Repr

/-- A category document: name, image and a list of member product ids. -/
structure Category where
  id : String
  name : String
  imageUrl : String
  products : List String
deriving DecidableEq, Repr

/-- The persisted state shared by all resolvers: the three mongoose
collections. -/
structure Store where
  products : List Product
  users : List UserRec
  categories : List Category
deriving DecidableEq, Repr

/-- The identity carried in a verified token: `{_id, username, email}`. -/
structure AuthUser where
  id : String
  username : String
  email : String
deriving DecidableEq, Repr

/-- The request headers the checkout resolver reads; only `referer` is
consulted. `none` models an absent referer header. -/
structure Headers where
  referer : Option String
deriving DecidableEq, Repr

/-- The per-request context (`IUserContext`): an optional authenticated
identity and optional headers. -/
structure Context where
  user : Option AuthUser
  headers : Option Headers
deriving DecidableEq, Repr

/-- The errors the resolver layer can raise.
`forbidden` is the shared `forbiddenException` (GraphQLError, code FORBIDDEN);
`notFound` the code NOT_FOUND errors; `insufficientStock` the BAD_REQUEST
GraphQLError of removeStock; `alreadyReviewed` the FORBIDDEN-coded
GraphQLError of addReview; `unauthenticated` the plain
`Error("User not authenticated")` of checkout; `urlParse` the TypeError that
`new URL` raises on an invalid string; `externalFailure` a failure reported
by the external payment collaborator. -/
inductive Err where
  | forbidden
  | notFound
  | insufficientStock
  | alreadyReviewed
  | unauthenticated
  | urlParse
  | externalFailure
deriving DecidableEq, Repr

/-- `Model.findById` on the product collection: first document whose id
matches (ids are unique in the store). -/
def Store.findProduct (s : Store) (productId : String) : Option Product :=
  s.products.find? (fun p => p.id = productId)

/-- `Model.findById` on the user collection. -/
def Store.findUser (s : Store) (userId : String) : Option UserRec :=
  s.users.find? (fun u => u.id = userId)

/-- `Model.findById` on the category collection. -/
def Store.findCategory (s : Store) (categoryId : String) : Option Category :=
  s.categories.find? (fun c => c.id = categoryId)

/-- `document.save()` for a product: persist the (mutated) document back
under its id. -/
def Store.saveProduct (s : Store) (p : Product) : Store :=
  { s with products := s.products.map (fun q => if q.id = p.id then p else q) }

/-- `document.save()` / `findByIdAndUpdate` for a user. -/
def Store.saveUser (s : Store) (u : UserRec) : Store :=
  { s with users := s.users.map (fun v => if v.id = u.id then u else v) }

/-- `document.save()` / `findByIdAndUpdate` for a category. -/
def Store.saveCategory (s : Store) (c : Category) : Store :=
  { s with categories := s.categories.map (fun d => if d.id = c.id then c else d) }

/-- Input for `addProduct` (the `ProductInput` GraphQL input type). -/
structure ProductInput where
  name : String
  description : String
  imageUrl : String
  price : Rat
  stock : Int
deriving DecidableEq, Repr

/-- Input for `addCategory` (the `CategoryInput` GraphQL input type). -/
structure CategoryInput where
  name : String
  imageUrl : String
deriving DecidableEq, Repr

/-- Mutation `addProduct`: requires an authenticated user, then creates the
product (fresh id supplied by the store). New products carry no reviews and
no sale configuration. -/
def addProduct (ctx : Context) (productData : ProductInput) (freshId : String)
    (s : Store) : Except Err Product × Store :=
  match ctx.user with
  | none => (.error .forbidden, s)
  | some _ =>
    let p : Product :=
      { id := freshId, name := productData.name,
        description := productData.description,
        imageUrl := productData.imageUrl, price := productData.price,
        stock := productData.stock, reviews := [], onSale := false,
        salePrice := none }
    (.ok p, { s with products := s.products ++ [p] })

/-- Mutation `removeProduct`: `findByIdAndDelete`; returns the deleted
document, or none when no product has that id (the source does not raise
NotFound here). -/
def removeProduct (ctx : Context) (productId : String) (s : Store) :
    Except Err (Option Product) × Store :=
  match ctx.user with
  | none => (.error .forbidden, s)
  | some _ =>
    (.ok (s.findProduct productId),
     { s with products := s.products.filter (fun p => !(p.id = productId : Bool)) })

/-- Mutation `addStock`: auth check, NotFound check, then
`product.stock += quantity` followed by save. No sign check on `quantity`. -/
def addStock (ctx : Context) (productId : String) (quantity : Int) (s : Store) :
    Except Err Product × Store :=
  match ctx.user with
  | none => (.error .forbidden, s)
  | some _ =>
    match s.findProduct productId with
    | none => (.error .notFound, s)
    | some product =>
      let product := { product with stock := product.stock + quantity }
      (.ok product, s.saveProduct product)

/-- Mutation `removeStock`: auth check, NotFound check, then the guarded
decrement: if `stock >= quantity` the stock is decremented and saved,
otherwise an InsufficientStock error is raised and nothing is written. -/
def removeStock (ctx : Context) (productId : String) (quantity : Int) (s : Store) :
    Except Err Product × Store :=
  match ctx.user with
  | none => (.error .forbidden, s)
  | some _ =>
    match s.findProduct productId with
    | none => (.error .notFound, s)
    | some product =>
      if product.stock ≥ quantity then
        let product := { product with stock := product.stock - quantity }
        (.ok product, s.saveProduct product)
      else
        (.error .insufficientStock, s)

/-- Mutation `addCategory`: auth check then `Category.create`. -/
def addCategory (ctx : Context) (categoryData : CategoryInput) (freshId : String)
    (s : Store) : Except Err Category × Store :=
  match ctx.user with
  | none => (.error .forbidden, s)
  | some _ =>
    let c : Category :=
      { id := freshId, name := categoryData.name,
        imageUrl := categoryData.imageUrl, products := [] }
    (.ok c, { s with categories := s.categories ++ [c] })

/-- Mutation `removeCategory`: `findByIdAndDelete` on categories. -/
def removeCategory (ctx : Context) (categoryId : String) (s : Store) :
    Except Err (Option Category) × Store :=
  match ctx.user with
  | none => (.error .forbidden, s)
  | some _ =>
    (.ok (s.findCategory categoryId),
     { s with categories := s.categories.filter (fun c => !(c.id = categoryId : Bool)) })

/-- Mutation `addProductToCategory`: auth check, NotFound checks for the
category and then the product, then `$push` of the product id onto the
category; the source returns the category document fetched before the
update. -/
def addProductToCategory (ctx : Context) (productId categoryId : String)
    (s : Store) : Except Err Category × Store :=
  match ctx.user with
  | none => (.error .forbidden, s)
  | some _ =>
    match s.findCategory categoryId with
    | none => (.error .notFound, s)
    | some category =>
      match s.findProduct productId with
      | none => (.error .notFound, s)
      | some _ =>
        let category2 := { category with products := category.products ++ [productId] }
        (.ok category, s.saveCategory category2)

/-- Mutation `addReview`: auth check, NotFound check, then a scan of the
existing reviews for one authored by the caller (AlreadyReviewed, FORBIDDEN
code, when found), otherwise `$push` of a fresh review; the source returns
the product document fetched before the push. -/
def addReview (ctx : Context) (productId : String) (body : String) (rating : Int)
    (now : Nat) (s : Store) : Except Err Product × Store :=
  match ctx.user with
  | none => (.error .forbidden, s)
  | some u =>
    match s.findProduct productId with
    | none => (.error .notFound, s)
    | some product =>
      if product.reviews.any (fun item => item.username = u.username) then
        (.error .alreadyReviewed, s)
      else
        let newReview : Review :=
          { username := u.username, review := body, rating := rating,
            dateCreated := now }
        (.ok product,
         s.saveProduct { product with reviews := product.reviews ++ [newReview] })

/-- The in-place update loop of `editReview`: walk the review list, and at
the first review authored by `username` overwrite its body and rating
(username and dateCreated are untouched); `none` when no review matches. -/
def updateFirstReview (reviews : List Review) (username body : String)
    (rating : Int) : Option (List Review) :=
  match reviews with
  | [] => none
  | item :: rest =>
    if item.username = username then
      some ({ item with review := body, rating := rating } :: rest)
    else
      (updateFirstReview rest username body rating).map (item :: ·)

/-- Mutation `editReview`: auth check, NotFound check, then the scan-and-
overwrite loop; when the caller has no review on the product the source
falls through the loop and hits the outer `forbiddenException` throw. -/
def editReview (ctx : Context) (productId : String) (body : String)
    (rating : Int) (s : Store) : Except Err Product × Store :=
  match ctx.user with
  | none => (.error .forbidden, s)
  | some u =>
    match s.findProduct productId with
    | none => (.error .notFound, s)
    | some product =>
      match updateFirstReview product.reviews u.username body rating with
      | some reviews2 =>
        let product2 := { product with reviews := reviews2 }
        (.ok product2, s.saveProduct product2)
      | none => (.error .forbidden, s)

/-- The aggregation loop of `addBasketItem`: increment the quantity of the
first basket line referencing `productId` (later lines untouched). -/
def incrementFirst (basket : List BasketItem) (productId : String)
    (quantity : Int) : List BasketItem :=
  match basket with
  | [] => []
  | item :: rest =>
    if item.product = productId then
      { item with quantity := item.quantity + quantity } :: rest
    else
      item :: incrementFirst rest productId quantity

/-- Mutation `addBasketItem`: auth check, product NotFound check, then: if a
basket line for the product exists, its quantity is incremented in place;
otherwise a new line is pushed. A missing user document falls through to the
outer `forbiddenException` throw. -/
def addBasketItem (ctx : Context) (productId : String) (quantity : Int)
    (now : Nat) (s : Store) : Except Err UserRec × Store :=
  match ctx.user with
  | none => (.error .forbidden, s)
  | some u =>
    match s.findProduct productId with
    | none => (.error .notFound, s)
    | some _ =>
      match s.findUser u.id with
      | none => (.error .forbidden, s)
      | some user =>
        if user.basket.any (fun item => item.product = productId) then
          let user2 := { user with
            basket := incrementFirst user.basket productId quantity }
          (.ok user2, s.saveUser user2)
        else
          let user2 := { user with
            basket := user.basket ++ [⟨productId, quantity, now⟩] }
          (.ok user2, s.saveUser user2)

/-- Mutation `removeBasketItem`: auth check, product NotFound check, then:
when a matching basket line exists, `$pull` removes every line referencing
the product; when none matches the source falls through the loop (the
`return user` is commented out) and hits the outer `forbiddenException`
throw. -/
def removeBasketItem (ctx : Context) (productId : String) (s : Store) :
    Except Err UserRec × Store :=
  match ctx.user with
  | none => (.error .forbidden, s)
  | some u =>
    match s.findProduct productId with
    | none => (.error .notFound, s)
    | some _ =>
      match s.findUser u.id with
      | none => (.error .forbidden, s)
      | some user =>
        if user.basket.any (fun item => item.product = productId) then
          let user2 := { user with
            basket := user.basket.filter (fun item => !(item.product = productId : Bool)) }
          (.ok user2, s.saveUser user2)
        else
          (.error .forbidden, s)

/-- The decrement loop body of `decrementBasketItem`: decrement the quantity
of the first basket line referencing `productId` by one. -/
def decrementFirst (basket : List BasketItem) (productId : String) :
    List BasketItem :=
  match basket with
  | [] => []
  | item :: rest =>
    if item.product = productId then
      { item with quantity := item.quantity - 1 } :: rest
    else
      item :: decrementFirst rest productId

/-- Mutation `decrementBasketItem`: auth check, product NotFound check, then:
at the first matching basket line, decrement when its quantity exceeds one,
otherwise `$pull` the line; with no matching line the source falls through
the loop and hits the outer `forbiddenException` throw. -/
def decrementBasketItem (ctx : Context) (productId : String) (s : Store) :
    Except Err UserRec × Store :=
  match ctx.user with
  | none => (.error .forbidden, s)
  | some u =>
    match s.findProduct productId with
    | none => (.error .notFound, s)
    | some _ =>
      match s.findUser u.id with
      | none => (.error .forbidden, s)
      | some user =>
        match user.basket.find? (fun item => item.product = productId) with
        | none => (.error .forbidden, s)
        | some item =>
          if item.quantity > 1 then
            let user2 := { user with
              basket := decrementFirst user.basket productId }
            (.ok user2, s.saveUser user2)
          else
            let user2 := { user with
              basket := user.basket.filter (fun i => !(i.product = productId : Bool)) }
            (.ok user2, s.saveUser user2)

/-- Mutation `clearBasket`: auth check, then `findByIdAndUpdate` setting the
basket to the empty list; a missing user document yields a null result
without an error. -/
def clearBasket (ctx : Context) (s : Store) :
    Except Err (Option UserRec) × Store :=
  match ctx.user with
  | none => (.error .forbidden, s)
  | some u =>
    match s.findUser u.id with
    | none => (.ok none, s)
    | some user =>
      let user2 := { user with basket := ([] : List BasketItem) }
      (.ok (some user2), s.saveUser user2)

/-- Abstraction of `new URL(str).origin`: the empty string (an absent
referer coerced with `|| ""`) is an invalid URL and throws, modelled by
`none`; a non-empty referer is assumed to parse, its origin modelled by the
string itself. Exact on the empty-string case the claims exercise. -/
def urlOrigin (str : String) : Option String :=
  if str = "" then none else some str

/-- The referer-parsing prologue of the checkout resolver, faithful to its
position before the authentication check: when headers are present the
referer (defaulted to the empty string) is parsed, and a parse failure
escapes as a thrown TypeError; without headers the url stays undefined. -/
def checkoutUrl (ctx : Context) : Except Err (Option String) :=
  match ctx.headers with
  | none => .ok none
  | some h =>
    let referer := match h.referer with
      | some r => r
      | none => ""
    match urlOrigin referer with
    | none => .error .urlParse
    | some origin => .ok (some origin)

/-- One step of the quantity-manifest construction
`productQuantities[id] = (productQuantities[id] || 0) + 1`, on the
insertion-ordered association list that models the JS object. -/
def bumpManifest (m : List (String × Nat)) (productId : String) :
    List (String × Nat) :=
  match m with
  | [] => [(productId, 1)]
  | (k, v) :: rest =>
    if k = productId then (k, v + 1) :: rest
    else (k, v) :: bumpManifest rest productId

/-- The quantity manifest of a flat product-id list: group into
`{productId, count}` pairs, keyed in first-insertion order as a JS object
with string keys is. -/
def checkoutManifest (ids : List String) : List (String × Nat) :=
  ids.foldl bumpManifest []

/-- Lookup `productQuantities[productId]` in the manifest (0 when absent;
the source only looks up ids that are present). -/
def manifestCount (m : List (String × Nat)) (productId : String) : Nat :=
  ((m.find? (fun kv => kv.1 = productId)).map Prod.snd).getD 0

/-- JS truthiness of the `salePrice` field as used in
`product.onSale && product.salePrice`: null/undefined and 0 are falsy. -/
def saleTruthy : Option Rat → Bool
  | none => false
  | some v => decide (v ≠ 0)

/-- The effective unit price of the checkout pipeline:
`product.onSale && product.salePrice ? product.salePrice : product.price`. -/
def effectivePrice (p : Product) : Rat :=
  if p.onSale && saleTruthy p.salePrice then p.salePrice.getD 0 else p.price

/-- The `unit_amount` sent to the payment provider:
`Math.round(finalPrice * 100)` (cents). `round` on `Rat` rounds half up,
as `Math.round` does. -/
def unitAmountCents (p : Product) : Int :=
  round (effectivePrice p * 100)

/-- One line item of the payment-session request: the created price object
(carrying its unit amount in cents) and the quantity from the manifest. -/
structure LineItem where
  unitAmount : Int
  quantity : Nat
deriving DecidableEq, Repr

/-- The payment session returned by the provider. -/
structure Session where
  sessionId : String
  url : String
deriving DecidableEq, Repr

/-- The external payment collaborator, at its interface boundary: given the
line items and the success/cancel redirect origin it either creates a
session or fails (network/validation), modelled by `none`. -/
structure StripeService where
  createSession : List LineItem → Option String → Option Session

/-- The priced line items of a checkout: fetch the products whose id occurs
among the manifest keys (`$in` query, in collection order) and map each to a
line item carrying its rounded effective unit price and its manifest
count. -/
def checkoutLineItems (products : List Product) (manifest : List (String × Nat)) :
    List LineItem :=
  (products.filter
      (fun p => (manifest.map Prod.fst).any (fun k => k = p.id))).map
    (fun p => { unitAmount := unitAmountCents p,
                quantity := manifestCount manifest p.id })

/-- Outcome of submitting the session request: the session on success, an
ExternalServiceFailure escaping to the caller otherwise. -/
def sessionResult (stripe : StripeService) (items : List LineItem)
    (url : Option String) : Except Err Session :=
  match stripe.createSession items url with
  | some session => .ok session
  | none => .error .externalFailure

/-- The checkout resolver. Order of effects, faithful to the source: referer
parsing, authentication check, unconditional order append (skipped only when
the user document is missing), manifest construction, product fetch and
line-item pricing, session request. The order append is never rolled back. -/
def checkout (stripe : StripeService) (ctx : Context) (productsArg : List String)
    (now : Nat) (s : Store) : Except Err Session × Store :=
  match checkoutUrl ctx with
  | .error e => (.error e, s)
  | .ok url =>
    match ctx.user with
    | none => (.error .unauthenticated, s)
    | some u =>
      let order : Order := { products := productsArg, purchaseDate := now }
      let s1 : Store :=
        match s.findUser u.id with
        | some user => s.saveUser { user with orders := user.orders ++ [order] }
        | none => s
      let manifest := checkoutManifest productsArg
      let items := checkoutLineItems s1.products manifest
      (sessionResult stripe items url, s1)

/-! Derived notions the verified properties quantify over. -/

/-- The stock invariant: every product in the store has non-negative stock. -/
def stockNonneg (s : Store) : Prop :=
  ∀ p ∈ s.products, 0 ≤ p.stock

instance (s : Store) : Decidable (stockNonneg s) :=
  inferInstanceAs (Decidable (∀ p ∈ s.products, 0 ≤ p.stock))

/-- One administrative stock mutation, as invoked through the interface:
either `addStock(productId, qty)` or `removeStock(productId, qty)`. -/
inductive StockOp where
  | add (productId : String) (qty : Int)
  | remove (productId : String) (qty : Int)
deriving DecidableEq, Repr

/-- The state reached by one stock mutation (its result value discarded). -/
def applyStockOp (ctx : Context) (s : Store) : StockOp → Store
  | .add pid qty => (addStock ctx pid qty s).2
  | .remove pid qty => (removeStock ctx pid qty s).2

/-- The state reached by a sequence of stock mutations. -/
def runStockOps (ctx : Context) (s : Store) (ops : List StockOp) : Store :=
  ops.foldl (applyStockOp ctx) s

/-- An addStock operation with non-negative quantity (any removeStock
qualifies): the restriction under which the stock invariant is preserved. -/
def StockOp.addNonneg : StockOp → Prop
  | .add _ qty => 0 ≤ qty
  | .remove _ _ => True

instance : DecidablePred StockOp.addNonneg := fun op =>
  match op with
  | .add _ qty => inferInstanceAs (Decidable (0 ≤ qty))
  | .remove _ _ => inferInstanceAs (Decidable True)

/-- The basket lines referencing a given product. -/
def linesFor (basket : List BasketItem) (productId : String) : List BasketItem :=
  basket.filter (fun item => item.product = productId)

/-- A basket with at most one line per product: no two lines reference the
same product. -/
def aggregatedBasket (basket : List BasketItem) : Prop :=
  basket.Pairwise (fun a b => a.product ≠ b.product)

instance (basket : List BasketItem) : Decidable (aggregatedBasket basket) :=
  inferInstanceAs (Decidable (basket.Pairwise _))

/-- Every basket in the store is aggregated. -/
def storeAggregated (s : Store) : Prop :=
  ∀ u ∈ s.users, aggregatedBasket u.basket

instance (s : Store) : Decidable (storeAggregated s) :=
  inferInstanceAs (Decidable (∀ u ∈ s.users, aggregatedBasket u.basket))

/-- One addBasketItem invocation: caller context, arguments, timestamp. -/
structure BasketAdd where
  ctx : Context
  productId : String
  quantity : Int
  now : Nat
deriving DecidableEq, Repr

/-- The state reached by a sequence of addBasketItem invocations. -/
def runBasketAdds (s : Store) : List BasketAdd → Store
  | [] => s
  | op :: rest => runBasketAdds (addBasketItem op.ctx op.productId op.quantity op.now s).2 rest

/-! Concrete fixtures used to witness the verified properties. -/

/-- Sample product with empty stock and no sale. -/
def widgetA : Product :=
  { id := "p1", name := "Widget A", description := "first sample product",
    imageUrl := "image-a", price := 5, stock := 0, reviews := [],
    onSale := false, salePrice := none }

/-- Sample product with stock 3, on sale at 7 (list price 10). -/
def widgetB : Product :=
  { id := "p2", name := "Widget B", description := "second sample product",
    imageUrl := "image-b", price := 10, stock := 3, reviews := [],
    onSale := true, salePrice := some 7 }

/-- Sample product flagged on sale whose salePrice field holds 0, a falsy
value in the source pricing conditional. -/
def widgetZeroSale : Product :=
  { id := "p1", name := "Widget Z", description := "zero sale price product",
    imageUrl := "image-z", price := 5, stock := 2, reviews := [],
    onSale := true, salePrice := some 0 }

/-- Sample review authored by alice. -/
def aliceReview : Review :=
  { username := "alice", review := "nice", rating := 4, dateCreated := 10 }

/-- Sample review authored by bob. -/
def bobReview : Review :=
  { username := "bob", review := "solid", rating := 3, dateCreated := 11 }

/-- Sample product carrying reviews by bob and alice. -/
def widgetReviewed : Product :=
  { id := "p3", name := "Widget R", description := "reviewed sample product",
    imageUrl := "image-r", price := 8, stock := 1,
    reviews := [bobReview, aliceReview], onSale := false, salePrice := none }

/-- Sample user with an empty basket and empty order history. -/
def aliceUser : UserRec :=
  { id := "u1", username := "alice", email := "alice@example.com",
    basket := [], orders := [] }

/-- The authenticated identity of the sample user. -/
def authAlice : AuthUser :=
  { id := "u1", username := "alice", email := "alice@example.com" }

/-- Context of an authenticated request without headers. -/
def ctxAlice : Context := { user := some authAlice, headers := none }

/-- Context of an unauthenticated request without headers. -/
def ctxAnon : Context := { user := none, headers := none }

/-- Context of an unauthenticated request whose headers carry no referer. -/
def ctxAnonNoReferer : Context := { user := none, headers := some { referer := none } }

/-- Sample store: two products, one user, no categories. -/
def baseStore : Store :=
  { products := [widgetA, widgetB], users := [aliceUser], categories := [] }

/-- Sample store whose first product is on sale with a zero sale price. -/
def zeroSaleStore : Store :=
  { products := [widgetZeroSale, widgetB], users := [aliceUser], categories := [] }

/-- Sample store containing the reviewed product. -/
def reviewStore : Store :=
  { products := [widgetReviewed, widgetB], users := [aliceUser], categories := [] }

/-- A payment collaborator that always creates a session. -/
def stripeOk : StripeService :=
  { createSession := fun _ _ => some { sessionId := "sess-1", url := "pay-redirect" } }

/-- A payment collaborator that always fails. -/
def stripeDown : StripeService :=
  { createSession := fun _ _ => none }

/-! Library lemmas about the store operations. -/

/-- `Math.round(q * 100)` evaluated on the exact rational: an integer
floor division usable by the kernel. -/
theorem round_mul_hundred (q : Rat) :
    round (q * 100) = Int.fdiv (200 * q.num + q.den) (2 * q.den) := by
  rw [round_eq]
  have hd : ((q.den : ℚ)) ≠ 0 := by exact_mod_cast q.den_ne_zero
  have hd2 : (((2 * q.den : ℕ)) : ℚ) ≠ 0 := by
    push_cast
    simp [hd]
  have h1 : (q * 100 + 1 / 2 : ℚ) =
      ((200 * q.num + (q.den : ℤ) : ℤ) : ℚ) / ((2 * q.den : ℕ) : ℚ) := by
    rw [eq_div_iff hd2]
    push_cast
    rw [show (q * 100 + 1 / 2) * (2 * (q.den : ℚ)) =
        q * (q.den : ℚ) * 200 + (q.den : ℚ) from by ring, Rat.mul_den_eq_num]
    ring
  rw [h1, Rat.floor_intCast_div_natCast, Int.fdiv_eq_ediv]
  · push_cast
    ring_nf
  · positivity

/-- Executable form of the cents amount of a line item. -/
theorem unitAmountCents_eval (p : Product) :
    unitAmountCents p =
      Int.fdiv (200 * (effectivePrice p).num + (effectivePrice p).den)
        (2 * (effectivePrice p).den) :=
  round_mul_hundred (effectivePrice p)

/-- Saving a user leaves the product collection untouched. -/
theorem saveUser_products (s : Store) (u : UserRec) :
    (s.saveUser u).products = s.products := rfl

/-- Saving a product leaves the user collection untouched. -/
theorem saveProduct_users (s : Store) (p : Product) :
    (s.saveProduct p).users = s.users := rfl

/-- Replacing the found user by one with the same id makes the replacement
the lookup result. List-level form. -/
theorem find_save_users (l : List UserRec) (uid : String) (u u2 : UserRec)
    (h : l.find? (fun v => v.id = uid) = some u) (h2 : u2.id = u.id) :
    (l.map (fun v => if v.id = u2.id then u2 else v)).find?
      (fun v => v.id = uid) = some u2 := by
  induction l with
  | nil => simp at h
  | cons a t ih =>
    by_cases hc : a.id = uid
    · rw [List.find?_cons_of_pos _ (by simpa using hc)] at h
      injection h with h
      subst h
      have hau : a.id = u2.id := h2.symm
      simp only [List.map_cons, if_pos hau]
      exact List.find?_cons_of_pos _ (by simp [← hau, hc])
    · rw [List.find?_cons_of_neg _ (by simpa using hc)] at h
      have hu : u.id = uid := by simpa using List.find?_some h
      have hne : ¬ (a.id = u2.id) := by
        rw [h2, hu]
        exact hc
      simp only [List.map_cons, if_neg hne]
      rw [List.find?_cons_of_neg _ (by simpa using hc)]
      exact ih h

/-- Store-level form of `find_save_users`. -/
theorem findUser_saveUser (s : Store) (uid : String) (u u2 : UserRec)
    (h : s.findUser uid = some u) (h2 : u2.id = u.id) :
    (s.saveUser u2).findUser uid = some u2 :=
  find_save_users s.users uid u u2 h h2

/-- Replacing the found product by one with the same id makes the
replacement the lookup result. List-level form. -/
theorem find_save_products (l : List Product) (pid : String) (p p2 : Product)
    (h : l.find? (fun q => q.id = pid) = some p) (h2 : p2.id = p.id) :
    (l.map (fun q => if q.id = p2.id then p2 else q)).find?
      (fun q => q.id = pid) = some p2 := by
  induction l with
  | nil => simp at h
  | cons a t ih =>
    by_cases hc : a.id = pid
    · rw [List.find?_cons_of_pos _ (by simpa using hc)] at h
      injection h with h
      subst h
      have hau : a.id = p2.id := h2.symm
      simp only [List.map_cons, if_pos hau]
      exact List.find?_cons_of_pos _ (by simp [← hau, hc])
    · rw [List.find?_cons_of_neg _ (by simpa using hc)] at h
      have hp : p.id = pid := by simpa using List.find?_some h
      have hne : ¬ (a.id = p2.id) := by
        rw [h2, hp]
        exact hc
      simp only [List.map_cons, if_neg hne]
      rw [List.find?_cons_of_neg _ (by simpa using hc)]
      exact ih h

/-- Store-level form of `find_save_products`. -/
theorem findProduct_saveProduct (s : Store) (pid : String) (p p2 : Product)
    (h : s.findProduct pid = some p) (h2 : p2.id = p.id) :
    (s.saveProduct p2).findProduct pid = some p2 :=
  find_save_products s.products pid p p2 h h2

/-- Every product present after a save is either the saved document or was
present before. -/
theorem mem_saveProduct (s : Store) (p q : Product)
    (hq : q ∈ (s.saveProduct p).products) : q = p ∨ q ∈ s.products := by
  unfold Store.saveProduct at hq
  simp only [List.mem_map] at hq
  obtain ⟨x, hx, hxe⟩ := hq
  by_cases h : x.id = p.id
  · rw [if_pos h] at hxe
    exact Or.inl hxe.symm
  · rw [if_neg h] at hxe
    subst hxe
    exact Or.inr hx

/-- Every user present after a save is either the saved document or was
present before. -/
theorem mem_saveUser (s : Store) (u v : UserRec)
    (hv : v ∈ (s.saveUser u).users) : v = u ∨ v ∈ s.users := by
  unfold Store.saveUser at hv
  simp only [List.mem_map] at hv
  obtain ⟨x, hx, hxe⟩ := hv
  by_cases h : x.id = u.id
  · rw [if_pos h] at hxe
    exact Or.inl hxe.symm
  · rw [if_neg h] at hxe
    subst hxe
    exact Or.inr hx

/-! C2: removeStock semantics. -/

/-- C2: for every authenticated caller and existing product,
`removeStock(id, qty)` with `qty` strictly above the current stock fails
with InsufficientStock and leaves the store (hence the stock) unchanged;
with `qty` at most the stock it succeeds and sets the stock to
`stock - qty`. -/
theorem removeStock_spec (ctx : Context) (u : AuthUser) (pid : String)
    (qty : Int) (s : Store) (p : Product)
    (hu : ctx.user = some u) (hp : s.findProduct pid = some p) :
    (p.stock < qty →
      removeStock ctx pid qty s = (.error .insufficientStock, s)) ∧
    (qty ≤ p.stock →
      removeStock ctx pid qty s =
        (.ok { p with stock := p.stock - qty },
         s.saveProduct { p with stock := p.stock - qty }) ∧
      (removeStock ctx pid qty s).2.findProduct pid =
        some { p with stock := p.stock - qty }) := by
  constructor
  · intro hlt
    simp only [removeStock, hu, hp]
    rw [if_neg (by omega)]
  · intro hle
    have hres : removeStock ctx pid qty s =
        (.ok { p with stock := p.stock - qty },
         s.saveProduct { p with stock := p.stock - qty }) := by
      simp only [removeStock, hu, hp]
      rw [if_pos (by omega)]
    refine ⟨hres, ?_⟩
    rw [hres]
    exact findProduct_saveProduct s pid p _ hp rfl

/-- Witness for C2 at a concrete input: product p2 has stock 3; removing 5
fails with InsufficientStock leaving the store as it was, removing 2 yields
stock 1. -/
theorem removeStock_spec_witness :
    removeStock ctxAlice ("p2") 5 baseStore = (.error .insufficientStock, baseStore) ∧
    removeStock ctxAlice ("p2") 2 baseStore =
      (.ok { widgetB with stock := 1 },
       baseStore.saveProduct { widgetB with stock := 1 }) :=
  ⟨(removeStock_spec ctxAlice authAlice ("p2") 5 baseStore widgetB rfl
      (by decide)).1 (by decide),
   ((removeStock_spec ctxAlice authAlice ("p2") 2 baseStore widgetB rfl
      (by decide)).2 (by decide)).1⟩

/-! C1: the stock invariant under addStock / removeStock sequences. -/

/-- A single stock mutation preserves non-negative stock provided an
addStock carries a non-negative quantity; a removeStock preserves it for
any integer quantity thanks to its guard. -/
theorem applyStockOp_nonneg (ctx : Context) (s : Store) (op : StockOp)
    (hs : stockNonneg s) (hop : op.addNonneg) :
    stockNonneg (applyStockOp ctx s op) := by
  cases op with
  | add pid qty =>
    simp only [applyStockOp, addStock]
    cases hctx : ctx.user with
    | none => simpa using hs
    | some u =>
      cases hp : s.findProduct pid with
      | none => simpa using hs
      | some p =>
        intro q hq
        rcases mem_saveProduct _ _ _ hq with h | h
        · subst h
          have hp0 : 0 ≤ p.stock := hs p (List.mem_of_find?_eq_some hp)
          have hq0 : (0 : Int) ≤ qty := hop
          simp only []
          omega
        · exact hs q h
  | remove pid qty =>
    simp only [applyStockOp, removeStock]
    cases hctx : ctx.user with
    | none => simpa using hs
    | some u =>
      cases hp : s.findProduct pid with
      | none => simpa using hs
      | some p =>
        dsimp only
        by_cases hge : p.stock ≥ qty
        · rw [if_pos hge]
          intro q hq
          rcases mem_saveProduct _ _ _ hq with h | h
          · subst h
            simp only []
            omega
          · exact hs q h
        · rw [if_neg hge]
          exact hs

/-- C1 (amended): starting from a store in which every stock is
non-negative, any sequence of addStock / removeStock calls in which every
addStock quantity is non-negative (removeStock quantities unrestricted)
leaves every stock non-negative. The restriction on addStock is forced by
the counterexample: the interface accepts negative quantities and addStock
applies them unchecked. -/
theorem stock_nonneg_invariant (ctx : Context) (s : Store) (ops : List StockOp)
    (hs : stockNonneg s) (hops : ∀ op ∈ ops, op.addNonneg) :
    stockNonneg (runStockOps ctx s ops) := by
  induction ops generalizing s with
  | nil => simpa [runStockOps] using hs
  | cons op rest ih =>
    have h1 : stockNonneg (applyStockOp ctx s op) :=
      applyStockOp_nonneg ctx s op hs (hops op (by simp))
    have h2 : ∀ o ∈ rest, o.addNonneg := fun o ho => hops o (by simp [ho])
    exact ih (applyStockOp ctx s op) h1 h2

/-- Witness for C1 (amended) at a concrete input: adding 5, removing 3 and
attempting to remove 9 (rejected by the guard) keeps the stock of every
product non-negative. -/
theorem stock_nonneg_invariant_witness :
    stockNonneg (runStockOps ctxAlice baseStore
      [StockOp.add ("p1") 5, StockOp.remove ("p1") 3, StockOp.remove ("p1") 9]) :=
  stock_nonneg_invariant ctxAlice baseStore
    [StockOp.add ("p1") 5, StockOp.remove ("p1") 3, StockOp.remove ("p1") 9]
    (by decide) (by decide)

/-- Counterexample to C1 as stated: the interface accepts any integer
quantity, and an authenticated `addStock("p1", -1)` on a store whose stocks
are all non-negative (product p1 has stock 0) drives the stock of p1 to -1. -/
theorem stock_nonneg_counterexample :
    stockNonneg baseStore ∧
    ¬ stockNonneg (runStockOps ctxAlice baseStore [StockOp.add ("p1") (-1)]) := by
  constructor
  · decide
  · decide

/-! C4: checkout persists the order before the payment session, and a
session failure does not roll it back. -/

/-- C4: for an authenticated user whose document exists and a request whose
referer prologue succeeds, checkout appends the order
`{products := input list, purchaseDate := now}` to the order history
regardless of the payment collaborator outcome (the append is never rolled
back), the history grows by exactly one entry, and a failing session
creation surfaces as an ExternalServiceFailure while the appended order
stays in place. -/
theorem checkout_order_append (stripe : StripeService) (ctx : Context)
    (u : AuthUser) (url : Option String) (prods : List String) (now : Nat)
    (s : Store) (user : UserRec)
    (hu : ctx.user = some u) (hurl : checkoutUrl ctx = .ok url)
    (huser : s.findUser u.id = some user) :
    (checkout stripe ctx prods now s).2.findUser u.id =
      some { user with
        orders := user.orders ++ [{ products := prods, purchaseDate := now }] } ∧
    ({ user with
        orders := user.orders ++ [{ products := prods, purchaseDate := now }]
        : UserRec }).orders.length = user.orders.length + 1 ∧
    (stripe.createSession
        (checkoutLineItems s.products (checkoutManifest prods)) url = none →
      (checkout stripe ctx prods now s).1 = .error .externalFailure) := by
  have hck : checkout stripe ctx prods now s =
      (sessionResult stripe
        (checkoutLineItems s.products (checkoutManifest prods)) url,
       s.saveUser { user with
        orders := user.orders ++ [{ products := prods, purchaseDate := now }] }) := by
    simp only [checkout, hurl, hu, huser]
    rfl
  refine ⟨?_, by simp, ?_⟩
  · rw [hck]
    exact findUser_saveUser s u.id user _ huser rfl
  · intro hdown
    rw [hck]
    simp only [sessionResult, hdown]

/-- Witness for C4 at a concrete input: with a failing payment collaborator,
checkout still records the order for the sample user and reports the
external failure. -/
theorem checkout_order_append_witness :
    (checkout stripeDown ctxAlice [("p1")] 7 baseStore).2.findUser ("u1") =
      some { aliceUser with
        orders := [{ products := [("p1")], purchaseDate := 7 }] } ∧
    (checkout stripeDown ctxAlice [("p1")] 7 baseStore).1 =
      .error .externalFailure := by
  have h := checkout_order_append stripeDown ctxAlice authAlice none
    [("p1")] 7 baseStore aliceUser rfl rfl (by decide)
  exact ⟨h.1, h.2.2 rfl⟩

/-! C6: unauthenticated mutations fail closed. -/

/-- The referer prologue can only fail with the URL-parsing error. -/
theorem checkoutUrl_error (ctx : Context) (e : Err)
    (h : checkoutUrl ctx = .error e) : e = .urlParse := by
  unfold checkoutUrl at h
  cases hh : ctx.headers with
  | none =>
    rw [hh] at h
    simp at h
  | some hd =>
    rw [hh] at h
    dsimp only at h
    cases hu : urlOrigin (match hd.referer with | some r => r | none => "") with
    | none =>
      rw [hu] at h
      injection h with h
      exact h.symm
    | some o =>
      rw [hu] at h
      simp at h

/-- C6 (amended): every mutating operation invoked with no authenticated
identity fails and causes no change to the persisted state. All listed
mutations fail with the Forbidden-class error; checkout fails with the
Unauthenticated error, except that when the context carries headers whose
referer is absent or unparsable it fails with the URL-parsing TypeError
(raised before its authentication check) — in every case the store is
untouched. -/
theorem unauthenticated_mutations (ctx : Context) (s : Store)
    (h : ctx.user = none) :
    (∀ productData freshId,
      addProduct ctx productData freshId s = (.error .forbidden, s)) ∧
    (∀ pid, removeProduct ctx pid s = (.error .forbidden, s)) ∧
    (∀ pid qty, addStock ctx pid qty s = (.error .forbidden, s)) ∧
    (∀ pid qty, removeStock ctx pid qty s = (.error .forbidden, s)) ∧
    (∀ categoryData freshId,
      addCategory ctx categoryData freshId s = (.error .forbidden, s)) ∧
    (∀ cid, removeCategory ctx cid s = (.error .forbidden, s)) ∧
    (∀ pid cid, addProductToCategory ctx pid cid s = (.error .forbidden, s)) ∧
    (∀ pid body rating now,
      addReview ctx pid body rating now s = (.error .forbidden, s)) ∧
    (∀ pid body rating, editReview ctx pid body rating s = (.error .forbidden, s)) ∧
    (∀ pid qty now, addBasketItem ctx pid qty now s = (.error .forbidden, s)) ∧
    (∀ pid, removeBasketItem ctx pid s = (.error .forbidden, s)) ∧
    (∀ pid, decrementBasketItem ctx pid s = (.error .forbidden, s)) ∧
    (clearBasket ctx s = (.error .forbidden, s)) ∧
    (∀ stripe prods now,
      (checkout stripe ctx prods now s).2 = s ∧
      ((checkout stripe ctx prods now s).1 = .error .unauthenticated ∨
       (checkout stripe ctx prods now s).1 = .error .urlParse)) := by
  refine ⟨fun _ _ => by simp [addProduct, h],
    fun _ => by simp [removeProduct, h],
    fun _ _ => by simp [addStock, h],
    fun _ _ => by simp [removeStock, h],
    fun _ _ => by simp [addCategory, h],
    fun _ => by simp [removeCategory, h],
    fun _ _ => by simp [addProductToCategory, h],
    fun _ _ _ _ => by simp [addReview, h],
    fun _ _ _ => by simp [editReview, h],
    fun _ _ _ => by simp [addBasketItem, h],
    fun _ => by simp [removeBasketItem, h],
    fun _ => by simp [decrementBasketItem, h],
    by simp [clearBasket, h],
    fun stripe prods now => ?_⟩
  cases hcu : checkoutUrl ctx with
  | error e =>
    have he := checkoutUrl_error ctx e hcu
    subst he
    constructor
    · simp [checkout, hcu]
    · right
      simp [checkout, hcu]
  | ok url =>
    constructor
    · simp [checkout, hcu, h]
    · left
      simp [checkout, hcu, h]

/-- Witness for C6 (amended) at concrete inputs: an unauthenticated addStock
fails with Forbidden, and an unauthenticated checkout leaves the store
unchanged. -/
theorem unauthenticated_mutations_witness :
    addStock ctxAnon ("p1") 5 baseStore = (.error .forbidden, baseStore) ∧
    (checkout stripeOk ctxAnon [("p1")] 0 baseStore).2 = baseStore := by
  obtain ⟨h1, h2, h3, h4, h5, h6, h7, h8, h9, h10, h11, h12, h13, h14⟩ :=
    unauthenticated_mutations ctxAnon baseStore rfl
  exact ⟨h3 ("p1") 5, (h14 stripeOk [("p1")] 0).1⟩

/-- Counterexample to C6 as stated: an unauthenticated checkout whose
context carries headers with no referer fails with the URL-parsing
TypeError (thrown before the authentication check), which is neither the
Forbidden-class nor the Unauthenticated error; the state is still
unchanged. -/
theorem unauthenticated_mutations_counterexample :
    (checkout stripeOk ctxAnonNoReferer [("p1")] 0 baseStore).1 =
      .error .urlParse ∧
    Err.urlParse ≠ Err.forbidden ∧ Err.urlParse ≠ Err.unauthenticated := by
  refine ⟨?_, by decide, by decide⟩
  rfl

/-! C8: at most one review per user per product. -/

/-- C8: for an authenticated caller and an existing product, addReview
fails with the AlreadyReviewed error (FORBIDDEN-coded) and leaves the store
untouched when the caller already has a review on the product; otherwise it
appends exactly one new review authored by the caller and changes nothing
else of the product. -/
theorem addReview_spec (ctx : Context) (u : AuthUser) (pid body : String)
    (rating : Int) (now : Nat) (s : Store) (p : Product)
    (hu : ctx.user = some u) (hp : s.findProduct pid = some p) :
    (p.reviews.any (fun item => item.username = u.username) = true →
      addReview ctx pid body rating now s = (.error .alreadyReviewed, s)) ∧
    (p.reviews.any (fun item => item.username = u.username) = false →
      addReview ctx pid body rating now s =
        (.ok p, s.saveProduct { p with reviews := p.reviews ++
          [{ username := u.username, review := body, rating := rating,
             dateCreated := now }] }) ∧
      (addReview ctx pid body rating now s).2.findProduct pid =
        some { p with reviews := p.reviews ++
          [{ username := u.username, review := body, rating := rating,
             dateCreated := now }] }) := by
  constructor
  · intro hany
    simp only [addReview, hu, hp]
    rw [if_pos hany]
  · intro hany
    have hres : addReview ctx pid body rating now s =
        (.ok p, s.saveProduct { p with reviews := p.reviews ++
          [{ username := u.username, review := body, rating := rating,
             dateCreated := now }] }) := by
      simp only [addReview, hu, hp]
      rw [if_neg (by simp [hany])]
    refine ⟨hres, ?_⟩
    rw [hres]
    exact findProduct_saveProduct s pid p _ hp rfl

/-- Witness for C8 at concrete inputs: alice reviewing the already-reviewed
product p3 a second time fails with AlreadyReviewed and changes nothing;
alice reviewing p2 (no review of hers) appends exactly one review. -/
theorem addReview_spec_witness :
    addReview ctxAlice ("p3") ("again") 5 20 reviewStore =
      (.error .alreadyReviewed, reviewStore) ∧
    addReview ctxAlice ("p2") ("fresh") 5 21 reviewStore =
      (.ok widgetB, reviewStore.saveProduct { widgetB with reviews :=
        [{ username := "alice", review := "fresh", rating := 5,
           dateCreated := 21 }] }) := by
  have h1 := (addReview_spec ctxAlice authAlice ("p3") ("again") 5 20
    reviewStore widgetReviewed rfl (by decide)).1 (by decide)
  have h2 := ((addReview_spec ctxAlice authAlice ("p2") ("fresh") 5 21
    reviewStore widgetB rfl (by decide)).2 (by decide)).1
  exact ⟨h1, h2⟩

/-! C9: editReview overwrites in place. -/

/-- The edit loop at the first review authored by the caller: entries before
it (none of which match) and after it are untouched; the matching entry
keeps its username and creation timestamp and gets the new body and
rating. -/
theorem updateFirstReview_split (pre post : List Review) (r : Review)
    (un body : String) (rating : Int)
    (hpre : ∀ x ∈ pre, x.username ≠ un) (hr : r.username = un) :
    updateFirstReview (pre ++ r :: post) un body rating =
      some (pre ++ { r with review := body, rating := rating } :: post) := by
  induction pre with
  | nil => simp [updateFirstReview, hr]
  | cons a t ih =>
    have ha : ¬ (a.username = un) := hpre a (by simp)
    simp only [List.cons_append, updateFirstReview, if_neg ha, List.append_eq]
    rw [ih (fun x hx => hpre x (by simp [hx]))]
    rfl

/-- C9: for an authenticated caller with an existing review on an existing
product (its review list splits as `pre ++ r :: post` with the first review
of the caller at `r`), editReview overwrites exactly that review with the
new body and rating in place — its username and creation timestamp are
kept, no entry is appended, every other review is untouched, and the review
count is unchanged. -/
theorem editReview_spec (ctx : Context) (u : AuthUser) (pid body : String)
    (rating : Int) (s : Store) (p : Product) (pre post : List Review)
    (r : Review)
    (hu : ctx.user = some u) (hp : s.findProduct pid = some p)
    (hsplit : p.reviews = pre ++ r :: post)
    (hpre : ∀ x ∈ pre, x.username ≠ u.username)
    (hr : r.username = u.username) :
    editReview ctx pid body rating s =
      (.ok { p with reviews :=
          pre ++ { r with review := body, rating := rating } :: post },
       s.saveProduct { p with reviews :=
          pre ++ { r with review := body, rating := rating } :: post }) ∧
    (editReview ctx pid body rating s).2.findProduct pid =
      some { p with reviews :=
          pre ++ { r with review := body, rating := rating } :: post } ∧
    (pre ++ ({ r with review := body, rating := rating } : Review) :: post).length
      = p.reviews.length := by
  have hres : editReview ctx pid body rating s =
      (.ok { p with reviews :=
          pre ++ { r with review := body, rating := rating } :: post },
       s.saveProduct { p with reviews :=
          pre ++ { r with review := body, rating := rating } :: post }) := by
    simp only [editReview, hu, hp, hsplit,
      updateFirstReview_split pre post r u.username body rating hpre hr]
  refine ⟨hres, ?_, by simp [hsplit]⟩
  rw [hres]
  exact findProduct_saveProduct s pid p _ hp rfl

/-- Witness for C9 at a concrete input: alice edits her review on p3; the
review of bob and her timestamp are untouched and the count stays 2. -/
theorem editReview_spec_witness :
    editReview ctxAlice ("p3") ("better") 2 reviewStore =
      (.ok { widgetReviewed with reviews :=
          [bobReview, { aliceReview with review := "better", rating := 2 }] },
       reviewStore.saveProduct { widgetReviewed with reviews :=
          [bobReview, { aliceReview with review := "better", rating := 2 }] }) := by
  have h := (editReview_spec ctxAlice authAlice ("p3") ("better") 2
    reviewStore widgetReviewed [bobReview] [] aliceReview rfl (by decide)
    (by decide) (by decide) (by decide)).1
  simpa using h

/-! C7: removing or decrementing an absent basket line. -/

/-- C7 (amended): for an authenticated user and a product that exists in
the catalog but has no line in the basket, removeBasketItem and
decrementBasketItem leave the store unchanged but are not silent no-ops:
both fall through their loop and fail with the Forbidden-class error
(the `return user` in the source is commented out). -/
theorem absent_line_basket_ops (ctx : Context) (u : AuthUser) (pid : String)
    (s : Store) (p : Product) (user : UserRec)
    (hu : ctx.user = some u) (hp : s.findProduct pid = some p)
    (huser : s.findUser u.id = some user)
    (habs : ∀ item ∈ user.basket, item.product ≠ pid) :
    removeBasketItem ctx pid s = (.error .forbidden, s) ∧
    decrementBasketItem ctx pid s = (.error .forbidden, s) := by
  have hany : user.basket.any (fun item => item.product = pid) = false := by
    rw [Bool.eq_false_iff]
    intro hc
    obtain ⟨x, hx, hxp⟩ := List.any_eq_true.mp hc
    exact habs x hx (by simpa using hxp)
  have hfind : user.basket.find? (fun item => item.product = pid) = none :=
    List.find?_eq_none.mpr (fun x hx => by simpa using habs x hx)
  constructor
  · simp only [removeBasketItem, hu, hp, huser]
    rw [if_neg (by simp [hany])]
  · simp only [decrementBasketItem, hu, hp, huser, hfind]

/-- Witness for C7 (amended) at a concrete input: alice has an empty basket,
product p1 exists; both operations fail with Forbidden and leave the store
unchanged. -/
theorem absent_line_basket_ops_witness :
    removeBasketItem ctxAlice ("p1") baseStore = (.error .forbidden, baseStore) ∧
    decrementBasketItem ctxAlice ("p1") baseStore = (.error .forbidden, baseStore) :=
  absent_line_basket_ops ctxAlice authAlice ("p1") baseStore widgetA aliceUser
    rfl (by decide) (by decide) (by decide)

/-- Counterexample to C7 as stated: with product p1 in the catalog and no
matching line in the basket of alice, both operations raise the
Forbidden-class error instead of returning the unchanged user without an
error. -/
theorem absent_line_basket_ops_counterexample :
    (removeBasketItem ctxAlice ("p1") baseStore).1 = .error .forbidden ∧
    (decrementBasketItem ctxAlice ("p1") baseStore).1 = .error .forbidden ∧
    (removeBasketItem ctxAlice ("p1") baseStore).1 ≠ .ok aliceUser := by
  refine ⟨rfl, rfl, ?_⟩
  intro h
  rw [show (removeBasketItem ctxAlice ("p1") baseStore).1 =
    Except.error Err.forbidden from rfl] at h
  exact Except.noConfusion h

/-! C5: basket aggregation semantics. -/

/-- Looking up a product is unaffected by saving a user. -/
theorem findProduct_saveUser (s : Store) (v : UserRec) (pid : String) :
    (s.saveUser v).findProduct pid = s.findProduct pid := rfl

/-- The increment loop does not change the sequence of referenced
products. -/
theorem incrementFirst_products (b : List BasketItem) (pid : String) (q : Int) :
    (incrementFirst b pid q).map (fun item => item.product) =
      b.map (fun item => item.product) := by
  induction b with
  | nil => rfl
  | cons a t ih =>
    by_cases ha : a.product = pid
    · simp [incrementFirst, if_pos ha]
    · simp [incrementFirst, if_neg ha, ih]

/-- A basket is aggregated exactly when its product-id sequence has no
repetition. -/
theorem aggregatedBasket_iff (b : List BasketItem) :
    aggregatedBasket b ↔
      (b.map (fun item => item.product)).Pairwise (fun a c => a ≠ c) := by
  unfold aggregatedBasket
  rw [List.pairwise_map]

/-- The increment loop preserves aggregation. -/
theorem aggregated_incrementFirst (b : List BasketItem) (pid : String) (q : Int)
    (hb : aggregatedBasket b) : aggregatedBasket (incrementFirst b pid q) := by
  rw [aggregatedBasket_iff] at hb ⊢
  rw [incrementFirst_products]
  exact hb

/-- Appending a line for a product not yet present preserves aggregation. -/
theorem aggregated_append (b : List BasketItem) (x : BasketItem)
    (hb : aggregatedBasket b) (habs : ∀ item ∈ b, item.product ≠ x.product) :
    aggregatedBasket (b ++ [x]) := by
  rw [aggregatedBasket_iff] at hb ⊢
  rw [List.map_append, List.pairwise_append]
  refine ⟨hb, by simp, ?_⟩
  intro a ha y hy
  simp only [List.map_cons, List.map_nil, List.mem_singleton] at hy
  subst hy
  obtain ⟨it, hit, rfl⟩ := List.mem_map.mp ha
  exact habs it hit

/-- Incrementing the first matching line of a basket with no earlier match:
the appended matching line takes the summed quantity, keeping its original
timestamp. -/
theorem incrementFirst_append_of_absent (b : List BasketItem) (pid : String)
    (q : Int) (x : BasketItem)
    (hb : ∀ item ∈ b, item.product ≠ pid) (hx : x.product = pid) :
    incrementFirst (b ++ [x]) pid q =
      b ++ [{ x with quantity := x.quantity + q }] := by
  induction b with
  | nil => simp [incrementFirst, hx]
  | cons a t ih =>
    have ha : ¬ (a.product = pid) := hb a (by simp)
    simp only [List.cons_append, incrementFirst, if_neg ha, List.append_eq]
    rw [ih (fun it hit => hb it (by simp [hit]))]

/-- One addBasketItem call preserves aggregation of every basket in the
store. -/
theorem addBasketItem_aggregated (ctx : Context) (pid : String) (q : Int)
    (now : Nat) (s : Store) (hs : storeAggregated s) :
    storeAggregated (addBasketItem ctx pid q now s).2 := by
  cases hctx : ctx.user with
  | none =>
    have h2 : (addBasketItem ctx pid q now s).2 = s := by
      simp only [addBasketItem, hctx]
    rw [h2]
    exact hs
  | some u =>
    cases hp : s.findProduct pid with
    | none =>
      have h2 : (addBasketItem ctx pid q now s).2 = s := by
        simp only [addBasketItem, hctx, hp]
      rw [h2]
      exact hs
    | some p =>
      cases huser : s.findUser u.id with
      | none =>
        have h2 : (addBasketItem ctx pid q now s).2 = s := by
          simp only [addBasketItem, hctx, hp, huser]
        rw [h2]
        exact hs
      | some user =>
        have huserMem : user ∈ s.users := List.mem_of_find?_eq_some huser
        by_cases hany : user.basket.any (fun item => item.product = pid) = true
        · have h2 : (addBasketItem ctx pid q now s).2 =
              s.saveUser { user with basket := incrementFirst user.basket pid q } := by
            simp only [addBasketItem, hctx, hp, huser]
            rw [if_pos hany]
          rw [h2]
          intro v hv
          rcases mem_saveUser _ _ _ hv with rfl | hmem
          · exact aggregated_incrementFirst _ _ _ (hs user huserMem)
          · exact hs v hmem
        · have h2 : (addBasketItem ctx pid q now s).2 =
              s.saveUser { user with
                basket := user.basket ++ [⟨pid, q, now⟩] } := by
            simp only [addBasketItem, hctx, hp, huser]
            rw [if_neg hany]
          rw [h2]
          intro v hv
          rcases mem_saveUser _ _ _ hv with rfl | hmem
          · refine aggregated_append _ _ (hs user huserMem) ?_
            intro it hit hcontra
            exact hany (List.any_eq_true.mpr ⟨it, hit, by simpa using hcontra⟩)
          · exact hs v hmem

/-- Any sequence of addBasketItem calls preserves aggregation of every
basket in the store. -/
theorem runBasketAdds_aggregated (s : Store) (ops : List BasketAdd)
    (hs : storeAggregated s) : storeAggregated (runBasketAdds s ops) := by
  induction ops generalizing s with
  | nil => simpa [runBasketAdds] using hs
  | cons op rest ih =>
    rw [runBasketAdds]
    exact ih _ (addBasketItem_aggregated _ _ _ _ _ hs)

/-- C5: for an authenticated user and an existing product with no line in
the basket yet, adding it twice with quantities q1 and q2 returns a user
whose basket carries exactly one line for that product with quantity
q1 + q2 (timestamped by the first add); and in general every store whose
baskets hold at most one line per product keeps that property under any
sequence of addBasketItem calls. -/
theorem basket_aggregation :
    (∀ (ctx : Context) (u : AuthUser) (pid : String) (q1 q2 : Int)
      (n1 n2 : Nat) (s : Store) (p : Product) (user : UserRec),
      ctx.user = some u → s.findProduct pid = some p →
      s.findUser u.id = some user →
      (∀ item ∈ user.basket, item.product ≠ pid) →
      (addBasketItem ctx pid q2 n2 (addBasketItem ctx pid q1 n1 s).2).1 =
        .ok { user with basket := user.basket ++ [⟨pid, q1 + q2, n1⟩] } ∧
      linesFor (user.basket ++ [⟨pid, q1 + q2, n1⟩]) pid =
        [⟨pid, q1 + q2, n1⟩]) ∧
    (∀ (s : Store) (ops : List BasketAdd),
      storeAggregated s → storeAggregated (runBasketAdds s ops)) := by
  refine ⟨?_, runBasketAdds_aggregated⟩
  intro ctx u pid q1 q2 n1 n2 s p user hu hp huser habs
  have hany : user.basket.any (fun item => item.product = pid) = false := by
    rw [Bool.eq_false_iff]
    intro hc
    obtain ⟨x, hx, hxp⟩ := List.any_eq_true.mp hc
    exact habs x hx (by simpa using hxp)
  have h1 : addBasketItem ctx pid q1 n1 s =
      (.ok { user with basket := user.basket ++ [⟨pid, q1, n1⟩] },
       s.saveUser { user with basket := user.basket ++ [⟨pid, q1, n1⟩] }) := by
    simp only [addBasketItem, hu, hp, huser]
    rw [if_neg (by simp [hany])]
  have hstep : (addBasketItem ctx pid q1 n1 s).2 =
      s.saveUser { user with basket := user.basket ++ [⟨pid, q1, n1⟩] } := by
    rw [h1]
  have hfu : (s.saveUser { user with
      basket := user.basket ++ [⟨pid, q1, n1⟩] }).findUser u.id =
      some { user with basket := user.basket ++ [⟨pid, q1, n1⟩] } :=
    findUser_saveUser s u.id user _ huser rfl
  have hfp : (s.saveUser { user with
      basket := user.basket ++ [⟨pid, q1, n1⟩] }).findProduct pid = some p := by
    rw [findProduct_saveUser]
    exact hp
  have hguard : ({ user with basket := user.basket ++ [⟨pid, q1, n1⟩] }
      : UserRec).basket.any (fun item => item.product = pid) = true := by
    apply List.any_eq_true.mpr
    exact ⟨⟨pid, q1, n1⟩, by simp, by simp⟩
  have hinc : incrementFirst (user.basket ++ [⟨pid, q1, n1⟩]) pid q2 =
      user.basket ++ [⟨pid, q1 + q2, n1⟩] :=
    incrementFirst_append_of_absent user.basket pid q2 ⟨pid, q1, n1⟩ habs rfl
  constructor
  · rw [hstep]
    simp only [addBasketItem, hu, hfp, hfu]
    rw [if_pos hguard, hinc]
  · unfold linesFor
    rw [List.filter_append]
    rw [List.filter_eq_nil_iff.mpr (fun it hit => by simpa using habs it hit)]
    simp

/-- Witness for C5 at concrete inputs: alice adds p1 with quantities 2 and
3; her basket ends with the single line (p1, 5), and the sample store keeps
its baskets aggregated under a sequence of adds. -/
theorem basket_aggregation_witness :
    (addBasketItem ctxAlice ("p1") 3 2
        (addBasketItem ctxAlice ("p1") 2 1 baseStore).2).1 =
      .ok { aliceUser with basket := [⟨"p1", 5, 1⟩] } ∧
    storeAggregated (runBasketAdds baseStore
      [{ ctx := ctxAlice, productId := "p1", quantity := 2, now := 1 },
       { ctx := ctxAlice, productId := "p2", quantity := 1, now := 2 },
       { ctx := ctxAlice, productId := "p1", quantity := 3, now := 3 }]) := by
  obtain ⟨ha, hb⟩ := basket_aggregation
  refine ⟨?_, hb baseStore _ (by decide)⟩
  have h := ha ctxAlice authAlice ("p1") 2 3 1 2 baseStore widgetA aliceUser
    rfl (by decide) (by decide) (by decide)
  simpa using h.1

/-! C10: checkout with nonexistent product ids. -/

/-- Every key of a bumped manifest is the bumped id or an existing key. -/
theorem bumpManifest_keys (m : List (String × Nat)) (a : String) :
    ∀ k ∈ (bumpManifest m a).map Prod.fst, k = a ∨ k ∈ m.map Prod.fst := by
  induction m with
  | nil =>
    intro k hk
    simp only [bumpManifest, List.map_cons, List.map_nil,
      List.mem_singleton] at hk
    exact Or.inl hk
  | cons kv rest ih =>
    obtain ⟨k0, v0⟩ := kv
    intro k hk
    by_cases hc : k0 = a
    · simp only [bumpManifest, if_pos hc, List.map_cons, List.mem_cons] at hk
      rcases hk with hk | hk
      · exact Or.inr (by simp [hk])
      · exact Or.inr (by simp [hk])
    · simp only [bumpManifest, if_neg hc, List.map_cons, List.mem_cons] at hk
      rcases hk with hk | hk
      · exact Or.inr (by simp [hk])
      · rcases ih k hk with h | h
        · exact Or.inl h
        · exact Or.inr (by simp [h])

/-- Every key of the quantity manifest occurs in the input id list. -/
theorem checkoutManifest_keys (ids : List String) :
    ∀ k ∈ (checkoutManifest ids).map Prod.fst, k ∈ ids := by
  have hgen : ∀ (ids : List String) (m : List (String × Nat)),
      ∀ k ∈ (ids.foldl bumpManifest m).map Prod.fst,
        k ∈ ids ∨ k ∈ m.map Prod.fst := by
    intro ids
    induction ids with
    | nil =>
      intro m k hk
      exact Or.inr hk
    | cons a t ih =>
      intro m k hk
      rcases ih (bumpManifest m a) k hk with h | h
      · exact Or.inl (by simp [h])
      · rcases bumpManifest_keys m a k h with h2 | h2
        · exact Or.inl (by simp [h2])
        · exact Or.inr h2
  intro k hk
  rcases hgen ids [] k hk with h | h
  · exact h
  · simp at h

/-- When no product of the collection matches any manifest key, the priced
line items are empty. -/
theorem checkoutLineItems_nil (products : List Product)
    (manifest : List (String × Nat))
    (h : ∀ p ∈ products, ∀ k ∈ manifest.map Prod.fst, k ≠ p.id) :
    checkoutLineItems products manifest = [] := by
  unfold checkoutLineItems
  rw [List.filter_eq_nil_iff.mpr ?_]
  · rfl
  · intro p hp hc
    obtain ⟨k, hk, hkp⟩ := List.any_eq_true.mp hc
    exact h p hp k hk (of_decide_eq_true hkp)

/-- C10: for an authenticated user (document present, referer prologue
fine), checkout never fails with NotFound whatever the id list; with a list
of ids absent from the catalog, the ids are still recorded verbatim in the
appended order, they contribute no line item, and the payment session is
requested with the empty line-item list (so the outcome is exactly that of
the collaborator on zero items). -/
theorem checkout_nonexistent_ids (stripe : StripeService) (ctx : Context)
    (u : AuthUser) (url : Option String) (now : Nat)
    (s : Store) (user : UserRec)
    (hu : ctx.user = some u) (hurl : checkoutUrl ctx = .ok url)
    (huser : s.findUser u.id = some user) :
    (∀ prods2 : List String,
      (checkout stripe ctx prods2 now s).1 ≠ .error .notFound) ∧
    (∀ prods : List String, (∀ pid ∈ prods, s.findProduct pid = none) →
      (checkout stripe ctx prods now s).2.findUser u.id =
        some { user with
          orders := user.orders ++ [{ products := prods, purchaseDate := now }] } ∧
      checkoutLineItems s.products (checkoutManifest prods) = [] ∧
      (checkout stripe ctx prods now s).1 = sessionResult stripe [] url) := by
  have hck : ∀ prods : List String, checkout stripe ctx prods now s =
      (sessionResult stripe
        (checkoutLineItems s.products (checkoutManifest prods)) url,
       s.saveUser { user with
        orders := user.orders ++ [{ products := prods, purchaseDate := now }] }) := by
    intro prods
    simp only [checkout, hurl, hu, huser]
    rfl
  constructor
  · intro prods2
    rw [hck prods2]
    unfold sessionResult
    cases stripe.createSession
        (checkoutLineItems s.products (checkoutManifest prods2)) url with
    | none => simp
    | some session => simp
  · intro prods habs
    have hempty : checkoutLineItems s.products (checkoutManifest prods) = [] := by
      apply checkoutLineItems_nil
      intro p hp k hk hkp
      have hkin : k ∈ prods := checkoutManifest_keys prods k hk
      have : s.findProduct k = none := habs k hkin
      have hnone := List.find?_eq_none.mp this p hp
      simp only [decide_eq_true_eq] at hnone
      exact hnone (by rw [hkp])
    refine ⟨?_, hempty, ?_⟩
    · rw [hck prods]
      exact findUser_saveUser s u.id user _ huser rfl
    · rw [hck prods, hempty]

/-- Witness for C10 at a concrete input: checking out the id list
[zz, zz] (absent from the catalog) with a working collaborator records the
order verbatim, prices zero line items and returns the session the
collaborator creates on the empty list. -/
theorem checkout_nonexistent_ids_witness :
    (checkout stripeOk ctxAlice [("zz"), ("zz")] 9 baseStore).2.findUser ("u1") =
      some { aliceUser with
        orders := [{ products := [("zz"), ("zz")], purchaseDate := 9 }] } ∧
    checkoutLineItems baseStore.products (checkoutManifest [("zz"), ("zz")]) = [] ∧
    (checkout stripeOk ctxAlice [("zz"), ("zz")] 9 baseStore).1 =
      sessionResult stripeOk [] none := by
  have h := (checkout_nonexistent_ids stripeOk ctxAlice authAlice none 9
    baseStore aliceUser rfl rfl (by decide)).2 [("zz"), ("zz")] (by decide)
  simpa using h

/-! C3: the checkout quantity manifest and priced line items. -/

/-- Grouping the flat list [a, a, b] (a and b distinct) yields the manifest
[(a, 2), (b, 1)] in first-insertion order. -/
theorem checkoutManifest_pair (a b : String) (hab : a ≠ b) :
    checkoutManifest [a, a, b] = [(a, 2), (b, 1)] := by
  unfold checkoutManifest
  simp only [List.foldl_cons, List.foldl_nil, bumpManifest, if_pos rfl,
    if_neg hab]

/-- With pairwise-distinct product ids, the catalog entries matching one id
are exactly the found document. -/
theorem filter_single_of_nodup (l : List Product) (b : String) (P : Product)
    (hnd : (l.map (fun p => p.id)).Nodup)
    (h : l.find? (fun p => p.id = b) = some P) :
    l.filter (fun p => p.id = b) = [P] := by
  induction l with
  | nil => simp at h
  | cons x t ih =>
    rw [List.map_cons, List.nodup_cons] at hnd
    by_cases hc : x.id = b
    · rw [List.find?_cons_of_pos _ (by simpa using hc)] at h
      injection h with h
      subst h
      rw [List.filter_cons_of_pos (by simpa using hc)]
      have htail : t.filter (fun p => p.id = b) = [] := by
        apply List.filter_eq_nil_iff.mpr
        intro p hp hpb
        have hpb2 : p.id = b := of_decide_eq_true hpb
        exact hnd.1 (List.mem_map.mpr ⟨p, hp, by rw [hpb2, hc]⟩)
      rw [htail]
    · rw [List.find?_cons_of_neg _ (by simpa using hc)] at h
      rw [List.filter_cons_of_neg (by simpa using hc)]
      exact ih hnd.2 h

/-- With pairwise-distinct product ids, the catalog entries matching either
of two distinct ids are, up to order, exactly the two found documents. -/
theorem filter_pair_perm (l : List Product) (a b : String) (P1 P2 : Product)
    (hnd : (l.map (fun p => p.id)).Nodup) (hab : a ≠ b)
    (h1 : l.find? (fun p => p.id = a) = some P1)
    (h2 : l.find? (fun p => p.id = b) = some P2) :
    List.Perm (l.filter (fun p => (p.id = a : Bool) || (p.id = b : Bool)))
      [P1, P2] := by
  induction l with
  | nil => simp at h1
  | cons x t ih =>
    rw [List.map_cons, List.nodup_cons] at hnd
    by_cases hxa : x.id = a
    · rw [List.find?_cons_of_pos _ (by simpa using hxa)] at h1
      injection h1 with h1
      subst h1
      have hxb : ¬ (x.id = b) := by
        rw [hxa]
        exact hab
      rw [List.find?_cons_of_neg _ (by simpa using hxb)] at h2
      rw [List.filter_cons_of_pos (by simp [hxa])]
      have hta : ∀ p ∈ t, ¬ (p.id = a) := by
        intro p hp hpa
        exact hnd.1 (List.mem_map.mpr ⟨p, hp, by rw [hpa, hxa]⟩)
      have hconv : t.filter (fun p => (p.id = a : Bool) || (p.id = b : Bool)) =
          t.filter (fun p => p.id = b) := by
        apply List.filter_congr
        intro p hp
        simp [hta p hp]
      rw [hconv, filter_single_of_nodup t b P2 hnd.2 h2]
    · by_cases hxb : x.id = b
      · rw [List.find?_cons_of_pos _ (by simpa using hxb)] at h2
        injection h2 with h2
        subst h2
        rw [List.find?_cons_of_neg _ (by simpa using hxa)] at h1
        rw [List.filter_cons_of_pos (by simp [hxb])]
        have htb : ∀ p ∈ t, ¬ (p.id = b) := by
          intro p hp hpb
          exact hnd.1 (List.mem_map.mpr ⟨p, hp, by rw [hpb, hxb]⟩)
        have hconv : t.filter (fun p => (p.id = a : Bool) || (p.id = b : Bool)) =
            t.filter (fun p => p.id = a) := by
          apply List.filter_congr
          intro p hp
          simp [htb p hp]
        rw [hconv, filter_single_of_nodup t a P1 hnd.2 h1]
        exact List.Perm.swap P1 x []
      · rw [List.find?_cons_of_neg _ (by simpa using hxa)] at h1
        rw [List.find?_cons_of_neg _ (by simpa using hxb)] at h2
        rw [List.filter_cons_of_neg (by simp [hxa, hxb])]
        exact ih hnd.2 h1 h2

/-- C3 (amended): for an authenticated request (referer prologue fine) on a
catalog with pairwise-distinct ids containing products a and b (a distinct
from b), checkout of the flat list [a, a, b] builds the quantity manifest
[(a, 2), (b, 1)], submits to the payment collaborator exactly two line
items — one per distinct product, each with the manifest quantity and the
rounded cents of the effective unit price, which is the sale price when
onSale is set with a set, nonzero sale price and the list price otherwise —
and the session request is made on exactly those line items. -/
theorem checkout_manifest_line_items (stripe : StripeService) (ctx : Context)
    (u : AuthUser) (url : Option String) (now : Nat) (s : Store)
    (a b : String) (P1 P2 : Product)
    (hu : ctx.user = some u) (hurl : checkoutUrl ctx = .ok url)
    (hnd : (s.products.map (fun p => p.id)).Nodup) (hab : a ≠ b)
    (h1 : s.findProduct a = some P1) (h2 : s.findProduct b = some P2) :
    checkoutManifest [a, a, b] = [(a, 2), (b, 1)] ∧
    List.Perm (checkoutLineItems s.products (checkoutManifest [a, a, b]))
      [{ unitAmount := unitAmountCents P1, quantity := 2 },
       { unitAmount := unitAmountCents P2, quantity := 1 }] ∧
    (checkout stripe ctx [a, a, b] now s).1 =
      sessionResult stripe
        (checkoutLineItems s.products (checkoutManifest [a, a, b])) url := by
  have hm := checkoutManifest_pair a b hab
  have h1f : s.products.find? (fun p => p.id = a) = some P1 := h1
  have h2f : s.products.find? (fun p => p.id = b) = some P2 := h2
  have hP1 : P1.id = a := by
    have h := List.find?_some h1f
    simpa using h
  have hP2 : P2.id = b := by
    have h := List.find?_some h2f
    simpa using h
  have hmc1 : manifestCount [(a, 2), (b, 1)] P1.id = 2 := by
    rw [hP1]
    unfold manifestCount
    rw [List.find?_cons_of_pos _ (by simp)]
    rfl
  have hmc2 : manifestCount [(a, 2), (b, 1)] P2.id = 1 := by
    rw [hP2]
    unfold manifestCount
    rw [List.find?_cons_of_neg _ (by simp [hab]),
      List.find?_cons_of_pos _ (by simp)]
    rfl
  have hconv : s.products.filter
      (fun p => (([(a, 2), (b, 1)] : List (String × Nat)).map Prod.fst).any
        (fun k => k = p.id)) =
      s.products.filter (fun p => (p.id = a : Bool) || (p.id = b : Bool)) := by
    apply List.filter_congr
    intro p hp
    by_cases hpa : p.id = a
    · simp [hpa]
    · by_cases hpb : p.id = b
      · simp [hpb]
      · have hpa2 : ¬ (a = p.id) := fun h => hpa h.symm
        have hpb2 : ¬ (b = p.id) := fun h => hpb h.symm
        simp [hpa, hpb, hpa2, hpb2]
  have hperm : List.Perm
      (checkoutLineItems s.products [(a, 2), (b, 1)])
      [{ unitAmount := unitAmountCents P1, quantity := 2 },
       { unitAmount := unitAmountCents P2, quantity := 1 }] := by
    unfold checkoutLineItems
    rw [hconv]
    have hp := (filter_pair_perm s.products a b P1 P2 hnd hab h1f h2f).map
      (fun p => LineItem.mk (unitAmountCents p)
        (manifestCount [(a, 2), (b, 1)] p.id))
    simpa [hmc1, hmc2] using hp
  refine ⟨hm, by rw [hm]; exact hperm, ?_⟩
  cases huser : s.findUser u.id with
  | none =>
    simp only [checkout, hurl, hu, huser]
  | some user =>
    simp only [checkout, hurl, hu, huser]
    rfl

/-- Witness for C3 (amended) at a concrete input: the sample store with
products p1 (not on sale, price 5) and p2 (on sale at 7): the manifest is
[(p1, 2), (p2, 1)] and the two line items carry 500 and 700 cents. -/
theorem checkout_manifest_line_items_witness :
    checkoutManifest [("p1"), ("p1"), ("p2")] = [(("p1"), 2), (("p2"), 1)] ∧
    List.Perm (checkoutLineItems baseStore.products
        (checkoutManifest [("p1"), ("p1"), ("p2")]))
      [{ unitAmount := unitAmountCents widgetA, quantity := 2 },
       { unitAmount := unitAmountCents widgetB, quantity := 1 }] := by
  have h := checkout_manifest_line_items stripeOk ctxAlice authAlice none 0
    baseStore ("p1") ("p2") widgetA widgetB rfl rfl (by decide) (by decide)
    (by decide) (by decide)
  exact ⟨h.1, h.2.1⟩

/-- Counterexample to C3 as stated: in the store whose product p1 has
onSale set and salePrice 0 (list price 5), the line item for p1 is priced
at the list price (500 cents), not at the sale price (0 cents) the claim
predicts for an active onSale flag: the falsy salePrice stops the source
conditional. -/
theorem checkout_line_items_counterexample :
    checkoutLineItems zeroSaleStore.products [(("p1"), 2), (("p2"), 1)] =
      [{ unitAmount := 500, quantity := 2 },
       { unitAmount := 700, quantity := 1 }] ∧
    widgetZeroSale.onSale = true ∧
    widgetZeroSale.salePrice = some 0 ∧
    (500 : Int) ≠ round (((0 : Rat)) * 100) := by
  have e1 : unitAmountCents widgetZeroSale = 500 := by
    rw [unitAmountCents_eval]
    rw [show effectivePrice widgetZeroSale = 5 from by decide]
    decide
  have e2 : unitAmountCents widgetB = 700 := by
    rw [unitAmountCents_eval]
    rw [show effectivePrice widgetB = 7 from by decide]
    decide
  have hfilter : zeroSaleStore.products.filter
      (fun p => (([(("p1"), 2), (("p2"), 1)] : List (String × Nat)).map
        Prod.fst).any (fun k => k = p.id)) = [widgetZeroSale, widgetB] := by
    decide
  have hzero : round (((0 : Rat)) * 100) = 0 := by
    norm_num
  refine ⟨?_, rfl, rfl, by rw [hzero]; decide⟩
  unfold checkoutLineItems
  rw [hfilter]
  simp only [List.map_cons, List.map_nil, e1, e2]
  decide
